import Mathlib

/-!
Verification of the Flipkart sales-data analysis pipeline (`analysis.py`).

The script is one linear pandas pipeline: load the CSV, drop unused columns,
filter rows (non-null brand, numeric prices, positive retail price, numeric
rating), derive fields (category root, description length, discount
percentage, sentiment polarity), render charts, and save the cleaned table
as CSV without an index column.

The embedding below models a CSV cell as `Option String` (`none` is a
missing value / NaN), `pd.to_numeric(..., errors := coerce)` as an executable
decimal/scientific parser into `ℚ`, the row filters of lines 28-39 as
`cleanRow`, the column derivations of lines 42/95/106/123 as `deriveRow`
(the category derivation faults - returns `none` - on a missing path, since
`float.split` does not exist in Python), sentiment scoring as an injected
`String → ℚ` oracle as the spec's design notes direct, and
`to_csv(index := False)` as `to_csv false`.
-/

namespace Flipkart

/-- A CSV cell: `none` models a missing value (NaN). -/
abbrev Cell := Option String

/-- Numeric value of a decimal digit character. -/
def digitVal (c : Char) : Nat := c.toNat - 48

/-- Read a maximal run of decimal digits, returning their value, how many
there were, and the rest of the input. -/
def readDigits : List Char → Nat → Nat → Nat × Nat × List Char
  | [], acc, n => (acc, n, [])
  | c :: cs, acc, n =>
    if c.isDigit then readDigits cs (10 * acc + digitVal c) (n + 1)
    else (acc, n, c :: cs)

/-- Read an optional leading sign. -/
def readSign : List Char → Int × List Char
  | '-' :: cs => (-1, cs)
  | '+' :: cs => (1, cs)
  | cs => (1, cs)

/-- Apply a scientific-notation exponent suffix to a scaled number
`num / den`: after an `e` or `E`, an optional sign and a non-empty digit
run (then only spaces) scale the number by the corresponding power of ten;
anything else makes the whole parse fail. -/
def applyExponent (num : Int) (den : Nat) (cs : List Char) : Option (Int × Nat) :=
  let q1 := readSign cs
  let q2 := readDigits q1.2 0 0
  if q2.2.1 = 0 ∨ (q2.2.2.dropWhile (· = ' ')) ≠ [] then none
  else if q1.1 = 1 then some (num * (10 : Int) ^ q2.1, den)
  else some (num, den * 10 ^ q2.1)

/-- Parse the text of a numeric cell the way `pd.to_numeric` does on a
string, as a numerator/denominator pair: optional surrounding spaces,
optional sign, integer part, optional fractional part, optional scientific
exponent; anything else fails. -/
def parseScaled (l : List Char) : Option (Int × Nat) :=
  let l0 := l.dropWhile (· = ' ')
  let p1 := readSign l0
  let p2 := readDigits p1.2 0 0
  let intPart := p2.1
  let intLen := p2.2.1
  let afterInt := p2.2.2
  let p3 :=
    match afterInt with
    | '.' :: cs => readDigits cs 0 0
    | _ => (0, 0, afterInt)
  let fracPart := p3.1
  let fracLen := p3.2.1
  let afterFrac := p3.2.2
  if intLen + fracLen = 0 then none
  else
    let num : Int := p1.1 * ((intPart : Int) * (10 : Int) ^ fracLen + (fracPart : Int))
    let den : Nat := 10 ^ fracLen
    match afterFrac with
    | 'e' :: cs => applyExponent num den cs
    | 'E' :: cs => applyExponent num den cs
    | rest => if rest.dropWhile (· = ' ') ≠ [] then none else some (num, den)

/-- The rational value of a parsed numeric cell. -/
def parseNumChars (l : List Char) : Option ℚ :=
  (parseScaled l).map (fun p => (p.1 : ℚ) / (p.2 : ℚ))

/-- Model of `pd.to_numeric(cell, errors := coerce)`: a missing cell stays
missing, an unparseable string becomes missing, a numeric string becomes its
rational value. -/
def to_numeric (c : Cell) : Option ℚ := c.bind (fun s => parseNumChars s.toList)

/-- One raw input row, with the columns the script touches. The columns
dropped on line 25 of `analysis.py` are carried too, so the projection is
part of the model. -/
structure RawRow where
  uniq_id : Cell
  crawl_timestamp : Cell
  product_url : Cell
  product_name : Cell
  product_category_tree : Cell
  pid : Cell
  retail_price : Cell
  discounted_price : Cell
  image : Cell
  is_FK_Advantage_product : Cell
  description : Cell
  product_rating : Cell
  overall_rating : Cell
  brand : Cell
  product_specifications : Cell
deriving DecidableEq

/-- A row that survived the cleaning filters of lines 25-39: unused columns
dropped, brand present, prices and rating numeric, description defaulted. -/
structure CleanRow where
  product_name : Cell
  product_category_tree : Cell
  retail_price : ℚ
  discounted_price : ℚ
  description : String
  product_rating : ℚ
  brand : String
deriving DecidableEq

/-- The row-level effect of lines 25-39 of `analysis.py`: drop the unused
columns, drop the row unless brand is present (line 28), default a missing
description to the empty string (line 29), coerce both prices and drop the
row if either fails to parse (lines 32-34), drop the row unless the retail
price is strictly positive (line 35), coerce the rating and drop the row if
it fails to parse (lines 38-39). -/
def cleanRow (r : RawRow) : Option CleanRow :=
  match r.brand with
  | none => none
  | some b =>
    match to_numeric r.retail_price, to_numeric r.discounted_price with
    | some rp, some dp =>
      if 0 < rp then
        match to_numeric r.product_rating with
        | some pr =>
          some { product_name := r.product_name
                 product_category_tree := r.product_category_tree
                 retail_price := rp
                 discounted_price := dp
                 description := r.description.getD ""
                 product_rating := pr
                 brand := b }
        | none => none
      else none
    | _, _ => none

/-- The cleaned table: the row filters applied in input order. -/
def cleanTable (rows : List RawRow) : List CleanRow := rows.filterMap cleanRow

/-- Python `str.split` specialised to the separator of line 42,
the two-character string of two greater-than signs: leftmost-first,
non-overlapping matches, always at least one (possibly empty) segment. -/
def splitGtGt : List Char → List (List Char)
  | [] => [[]]
  | [c] => [[c]]
  | c :: d :: rest =>
    if c = '>' ∧ d = '>' then [] :: splitGtGt rest
    else
      match splitGtGt (d :: rest) with
      | [] => [[c]]
      | s :: ss => (c :: s) :: ss

/-- The category derivation of line 42 on the character list of a path:
`x.split(sep)[0][2:]`, that is, the text before the first separator with its
first two characters removed (Python slicing is total). -/
def deriveCatChars (l : List Char) : List Char := ((splitGtGt l).headD []).drop 2

/-- The category derivation of line 42 on a string path. -/
def deriveCat (s : String) : String := String.mk (deriveCatChars s.toList)

/-- The per-cell effect of `df[col].apply(lambda x: x.split(sep)[0][2:])` on
line 42: a missing cell is a float NaN in pandas, so `.split` raises
`AttributeError` (modelled as `none`); a string cell is derived totally. -/
def applyCatDerivation : Cell → Option String
  | none => none
  | some s => some (deriveCat s)

/-- A row of the final table saved on line 135: the cleaned columns with the
category column overwritten by its derived root (line 42) and the three
derived columns appended in creation order (lines 95, 106, 123). -/
structure FinalRow where
  product_name : Cell
  product_category_tree : String
  retail_price : ℚ
  discounted_price : ℚ
  description : String
  product_rating : ℚ
  brand : String
  description_length : Nat
  discount_percentage : ℚ
  sentiment : ℚ
deriving DecidableEq

/-- The row-level effect of the derivation lines 42, 95, 106 and 123:
category root, description character count, discount percentage
`(retail - discounted) / retail * 100`, and the sentiment polarity of the
description under the injected oracle `sent` (the TextBlob model). Faults if
the category path is missing. -/
def deriveRow (sent : String → ℚ) (c : CleanRow) : Option FinalRow :=
  (applyCatDerivation c.product_category_tree).map fun cat =>
    { product_name := c.product_name
      product_category_tree := cat
      retail_price := c.retail_price
      discounted_price := c.discounted_price
      description := c.description
      product_rating := c.product_rating
      brand := c.brand
      description_length := c.description.length
      discount_percentage := (c.retail_price - c.discounted_price) / c.retail_price * 100
      sentiment := sent c.description }

/-- Apply a column derivation to every row; a fault on any row aborts the
whole pipeline (pandas `apply` propagates the exception). -/
def mapOption (f : α → Option β) : List α → Option (List β)
  | [] => some []
  | a :: l =>
    match f a, mapOption f l with
    | some b, some t => some (b :: t)
    | _, _ => none

/-- The final table written on line 135: the cleaned rows with all derived
columns, or `none` if the category derivation faulted on some row. -/
def finalTable (sent : String → ℚ) (rows : List RawRow) : Option (List FinalRow) :=
  mapOption (deriveRow sent) (cleanTable rows)

/-- `value_counts` before sorting: each distinct value of the column paired
with its number of occurrences. -/
def valueCounts (l : List String) : List (String × Nat) :=
  l.dedup.map (fun v => (v, l.count v))

/-- Descending-count order on `value_counts` entries. -/
def countGe (a b : String × Nat) : Prop := b.2 ≤ a.2

instance : DecidableRel countGe := fun a b => inferInstanceAs (Decidable (b.2 ≤ a.2))

instance : IsTotal (String × Nat) countGe :=
  ⟨fun a b => (Nat.le_total a.2 b.2).symm.imp id id⟩

instance : IsTrans (String × Nat) countGe :=
  ⟨fun _ _ _ h1 h2 => Nat.le_trans h2 h1⟩

/-- Model of `value_counts()`: occurrence counts sorted by count,
descending. -/
def sortedCounts (l : List String) : List (String × Nat) :=
  (valueCounts l).insertionSort countGe

/-- Model of `value_counts().head(10)` (lines 43 and 59): the ten most
frequent values with their counts, in descending count order. -/
def topCounts (l : List String) : List (String × Nat) := (sortedCounts l).take 10

/-- Render a rational cell the way the writer renders a number. -/
def ratCell (q : ℚ) : String := toString q

/-- Render a natural-number cell. -/
def natCell (n : Nat) : String := toString n

/-- Does a CSV field need quoting (pandas QUOTE_MINIMAL)? -/
def needsQuoting (s : String) : Bool :=
  s.toList.any (fun c => c = ',' ∨ c = '"' ∨ c = '\n' ∨ c = '\r')

/-- Quote a CSV field, doubling embedded double quotes. -/
def quoteField (s : String) : String :=
  String.mk ('"' :: s.toList.foldr
    (fun c acc => if c = '"' then '"' :: '"' :: acc else c :: acc) ['"'])

/-- Render one CSV field with minimal quoting. -/
def csvField (s : String) : String := if needsQuoting s then quoteField s else s

/-- Render one CSV line from its fields. -/
def csvLine (cells : List String) : String :=
  String.intercalate "," (cells.map csvField)

/-- The column names of the final table, in column order: the input columns
that survive the projection of line 25, then the derived columns in creation
order. -/
def headerCells : List String :=
  ["product_name", "product_category_tree", "retail_price", "discounted_price",
   "description", "product_rating", "brand",
   "description_length", "discount_percentage", "sentiment"]

/-- The fields of one data row of the written CSV, in column order; a
missing cell is written as the empty field. -/
def rowCells (fr : FinalRow) : List String :=
  [fr.product_name.getD "", fr.product_category_tree, ratCell fr.retail_price,
   ratCell fr.discounted_price, fr.description, ratCell fr.product_rating,
   fr.brand, natCell fr.description_length, ratCell fr.discount_percentage,
   ratCell fr.sentiment]

/-- Model of `DataFrame.to_csv` as the list of output lines: a header line
then one line per row; with `index := true` an index column is prepended,
with `index := false` (the call on line 135) it is not. -/
def to_csv (index : Bool) (t : List FinalRow) : List String :=
  if index then
    csvLine ("" :: headerCells) ::
      (t.enum.map fun p => csvLine (natCell p.1 :: rowCells p.2))
  else
    csvLine headerCells :: t.map (fun fr => csvLine (rowCells fr))

/-- The whole pipeline as far as the persisted artifact is concerned: clean,
derive, and serialise with `index := false`; `none` when the pipeline
faults before the write. -/
def runPipeline (sent : String → ℚ) (rows : List RawRow) : Option (List String) :=
  (finalTable sent rows).map (to_csv false)

/-! ### Concrete example rows used by the witnesses -/

/-- A fully well-formed raw row. -/
def rawGood : RawRow :=
  { uniq_id := none, crawl_timestamp := none, product_url := none,
    product_name := some "Shirt", product_category_tree := some "a>>b",
    pid := none, retail_price := some "999", discounted_price := some "499",
    image := none, is_FK_Advantage_product := none, description := some "Nice shirt",
    product_rating := some "3.5", overall_rating := none, brand := some "Acme",
    product_specifications := none }

/-- The cleaned form of `rawGood`. -/
def cGood : CleanRow :=
  { product_name := some "Shirt", product_category_tree := some "a>>b",
    retail_price := 999, discounted_price := 499, description := "Nice shirt",
    product_rating := 7 / 2, brand := "Acme" }

/-- A raw row whose discounted price exceeds its retail price and whose
description is missing. -/
def rawNeg : RawRow :=
  { uniq_id := none, crawl_timestamp := none, product_url := none,
    product_name := none, product_category_tree := some "a>>b",
    pid := none, retail_price := some "100", discounted_price := some "150",
    image := none, is_FK_Advantage_product := none, description := none,
    product_rating := some "4", overall_rating := none, brand := some "Acme",
    product_specifications := none }

/-- A fixed sentiment oracle for witnesses: polarity 0 for every text. -/
def zeroSent : String → ℚ := fun _ => 0

/-- The cleaned form of `rawNeg`. -/
def cNeg : CleanRow :=
  { product_name := none, product_category_tree := some "a>>b",
    retail_price := 100, discounted_price := 150, description := "",
    product_rating := 4, brand := "Acme" }

/-- The final form of `rawGood` under the `zeroSent` oracle. -/
def fGood : FinalRow :=
  { product_name := some "Shirt", product_category_tree := "",
    retail_price := 999, discounted_price := 499, description := "Nice shirt",
    product_rating := 7 / 2, brand := "Acme", description_length := 10,
    discount_percentage := (999 - 499) / 999 * 100, sentiment := 0 }

/-- The final form of `rawNeg` under the `zeroSent` oracle. -/
def fNeg : FinalRow :=
  { product_name := none, product_category_tree := "",
    retail_price := 100, discounted_price := 150, description := "",
    product_rating := 4, brand := "Acme", description_length := 0,
    discount_percentage := (100 - 150) / 100 * 100, sentiment := 0 }

/-- A cleaned row whose category path is the spec's example shape. -/
def cCloth : CleanRow :=
  { product_name := none,
    product_category_tree := some "[\"Clothing >> Womens Clothing >> All\"]",
    retail_price := 999, discounted_price := 499, description := "",
    product_rating := 4, brand := "Acme" }

/-- The final form of `cCloth` under the `zeroSent` oracle. -/
def fCloth : FinalRow :=
  { product_name := none, product_category_tree := "Clothing ",
    retail_price := 999, discounted_price := 499, description := "",
    product_rating := 4, brand := "Acme", description_length := 0,
    discount_percentage := (999 - 499) / 999 * 100, sentiment := 0 }

/-! ### Helper lemmas -/

lemma cleanRow_isSome_iff (r : RawRow) :
    (cleanRow r).isSome ↔
      r.brand.isSome ∧ (∃ q, to_numeric r.retail_price = some q ∧ 0 < q) ∧
        (to_numeric r.discounted_price).isSome ∧ (to_numeric r.product_rating).isSome := by
  unfold cleanRow
  cases hb : r.brand with
  | none => simp
  | some b =>
    cases hrp : to_numeric r.retail_price with
    | none => simp
    | some rp =>
      cases hdp : to_numeric r.discounted_price with
      | none => simp
      | some dp =>
        cases hpr : to_numeric r.product_rating with
        | none => by_cases h : 0 < rp <;> simp [h]
        | some pr => by_cases h : 0 < rp <;> simp [h]

lemma cleanRow_spec (r : RawRow) (c : CleanRow) (h : cleanRow r = some c) :
    r.brand = some c.brand ∧ to_numeric r.retail_price = some c.retail_price ∧
      to_numeric r.discounted_price = some c.discounted_price ∧
      to_numeric r.product_rating = some c.product_rating ∧
      0 < c.retail_price ∧ c.description = r.description.getD "" ∧
      c.product_category_tree = r.product_category_tree ∧
      c.product_name = r.product_name := by
  unfold cleanRow at h
  cases hb : r.brand with
  | none => rw [hb] at h; cases h
  | some b =>
    cases hrp : to_numeric r.retail_price with
    | none => rw [hb, hrp] at h; cases h
    | some rp =>
      cases hdp : to_numeric r.discounted_price with
      | none => rw [hb, hrp, hdp] at h; cases h
      | some dp =>
        rw [hb, hrp, hdp] at h
        dsimp only at h
        by_cases hpos : 0 < rp
        · rw [if_pos hpos] at h
          cases hpr : to_numeric r.product_rating with
          | none => rw [hpr] at h; cases h
          | some pr =>
            rw [hpr] at h
            cases h
            exact ⟨rfl, rfl, rfl, rfl, hpos, rfl, rfl, rfl⟩
        · rw [if_neg hpos] at h; cases h

lemma mem_cleanTable_iff (rows : List RawRow) (c : CleanRow) :
    c ∈ cleanTable rows ↔ ∃ r ∈ rows, cleanRow r = some c := by
  simp [cleanTable, List.mem_filterMap]

lemma mem_of_mapOption {α β : Type _} (f : α → Option β) (l : List α) (t : List β)
    (h : mapOption f l = some t) : ∀ b ∈ t, ∃ a ∈ l, f a = some b := by
  induction l generalizing t with
  | nil =>
    simp only [mapOption, Option.some.injEq] at h
    subst h
    intro b hb
    cases hb
  | cons a l ih =>
    simp only [mapOption] at h
    cases hfa : f a with
    | none => rw [hfa] at h; cases h
    | some b0 =>
      rw [hfa] at h
      cases hml : mapOption f l with
      | none => rw [hml] at h; cases h
      | some t0 =>
        rw [hml] at h
        cases h
        intro b hb
        rcases List.mem_cons.mp hb with hb | hb
        · exact ⟨a, List.mem_cons_self a l, hb ▸ hfa⟩
        · rcases ih t0 hml b hb with ⟨a', ha', hfa'⟩
          exact ⟨a', List.mem_cons_of_mem a ha', hfa'⟩

lemma splitGtGt_ne_nil : ∀ l : List Char, splitGtGt l ≠ []
  | [] => by simp [splitGtGt]
  | [c] => by simp [splitGtGt]
  | c :: d :: rest => by
    rw [splitGtGt]
    by_cases hcd : c = '>' ∧ d = '>'
    · rw [if_pos hcd]; exact List.cons_ne_nil _ _
    · rw [if_neg hcd]
      cases hm : splitGtGt (d :: rest) with
      | nil => exact List.cons_ne_nil _ _
      | cons s ss => exact List.cons_ne_nil _ _

lemma splitGtGt_cons2 (b : List Char) : splitGtGt ('>' :: '>' :: b) = [] :: splitGtGt b := by
  rw [splitGtGt, if_pos ⟨rfl, rfl⟩]

lemma splitGtGt_append (a : List Char) (b : List Char) (ha : splitGtGt a = [a])
    (hlast : a.getLast? ≠ some '>') :
    splitGtGt (a ++ '>' :: '>' :: b) = a :: splitGtGt b := by
  have H : ∀ (n : Nat) (a b : List Char), a.length ≤ n → splitGtGt a = [a] →
      a.getLast? ≠ some '>' → splitGtGt (a ++ '>' :: '>' :: b) = a :: splitGtGt b := by
    intro n
    induction n with
    | zero =>
      intro a b hlen _ _
      have hnil : a = [] := List.length_eq_zero.mp (Nat.le_zero.mp hlen)
      subst hnil
      simpa using splitGtGt_cons2 b
    | succ n ih =>
      intro a b hlen ha hlast
      match a with
      | [] => simpa using splitGtGt_cons2 b
      | [c] =>
        have hc : c ≠ '>' := by
          intro hcontra
          exact hlast (by simp [hcontra])
        show splitGtGt (c :: '>' :: '>' :: b) = [c] :: splitGtGt b
        rw [splitGtGt, if_neg (by simp [hc]), splitGtGt_cons2 b]
      | c :: d :: rest =>
        have hstep : splitGtGt (c :: d :: rest) =
            if c = '>' ∧ d = '>' then [] :: splitGtGt rest
            else
              match splitGtGt (d :: rest) with
              | [] => [[c]]
              | s :: ss => (c :: s) :: ss := by rw [splitGtGt]
        by_cases hcd : c = '>' ∧ d = '>'
        · rw [hstep, if_pos hcd] at ha
          cases ha
        · rw [hstep, if_neg hcd] at ha
          cases hm : splitGtGt (d :: rest) with
          | nil => exact absurd hm (splitGtGt_ne_nil _)
          | cons s ss =>
            rw [hm] at ha
            have hs : s = d :: rest := by
              have := List.head_eq_of_cons_eq ha
              exact List.tail_eq_of_cons_eq this
            have hss : ss = [] := List.tail_eq_of_cons_eq ha
            have hkey : splitGtGt (d :: rest) = [d :: rest] := by rw [hm, hs, hss]
            have hlast2 : (d :: rest).getLast? ≠ some '>' := by
              rwa [List.getLast?_cons_cons] at hlast
            have hlen2 : (d :: rest).length ≤ n := by
              simpa [List.length_cons] using Nat.le_of_succ_le_succ hlen
            have ihr := ih (d :: rest) b hlen2 hkey hlast2
            show splitGtGt (c :: d :: (rest ++ '>' :: '>' :: b)) = _
            rw [splitGtGt, if_neg hcd]
            have harg : d :: (rest ++ '>' :: '>' :: b) = (d :: rest) ++ '>' :: '>' :: b := by
              simp
            rw [harg, ihr]
  exact H a.length a b (Nat.le_refl _) ha hlast

lemma deriveCatChars_of_form (pre seg rest : List Char) (hpre : pre.length = 2)
    (hns : splitGtGt (pre ++ seg) = [pre ++ seg])
    (hlast : (pre ++ seg).getLast? ≠ some '>') :
    deriveCatChars ((pre ++ seg) ++ '>' :: '>' :: rest) = seg := by
  unfold deriveCatChars
  rw [splitGtGt_append (pre ++ seg) rest hns hlast]
  show (((pre ++ seg) :: splitGtGt rest).headD []).drop 2 = seg
  rw [List.headD_cons, ← hpre, List.drop_left]

lemma deriveRow_spec (sent : String → ℚ) (c : CleanRow) (fr : FinalRow)
    (h : deriveRow sent c = some fr) :
    fr.retail_price = c.retail_price ∧ fr.discounted_price = c.discounted_price ∧
      fr.product_rating = c.product_rating ∧ fr.brand = c.brand ∧
      fr.description = c.description ∧ fr.description_length = c.description.length ∧
      fr.discount_percentage =
        (c.retail_price - c.discounted_price) / c.retail_price * 100 ∧
      fr.sentiment = sent c.description ∧
      (∃ path, c.product_category_tree = some path ∧
        fr.product_category_tree = deriveCat path) := by
  unfold deriveRow applyCatDerivation at h
  cases hpath : c.product_category_tree with
  | none => rw [hpath] at h; cases h
  | some path =>
    rw [hpath] at h
    cases h
    exact ⟨rfl, rfl, rfl, rfl, rfl, rfl, rfl, rfl, path, rfl, rfl⟩

lemma mem_finalTable (sent : String → ℚ) (rows : List RawRow) (t : List FinalRow)
    (h : finalTable sent rows = some t) (fr : FinalRow) (hfr : fr ∈ t) :
    ∃ r ∈ rows, ∃ c, cleanRow r = some c ∧ deriveRow sent c = some fr := by
  rcases mem_of_mapOption (deriveRow sent) (cleanTable rows) t h fr hfr with ⟨c, hc, hd⟩
  rcases (mem_cleanTable_iff rows c).mp hc with ⟨r, hr, hcr⟩
  exact ⟨r, hr, c, hcr, hd⟩

lemma sorted_sortedCounts (l : List String) : (sortedCounts l).Sorted countGe :=
  List.sorted_insertionSort countGe (valueCounts l)

lemma sorted_topCounts (l : List String) : (topCounts l).Sorted countGe :=
  List.Pairwise.sublist (List.take_sublist 10 (sortedCounts l)) (sorted_sortedCounts l)

lemma head_topCounts_max (l : List String) (v : String) (hv : v ∈ l) (p : String × Nat)
    (hp : (topCounts l).head? = some p) : l.count v ≤ p.2 := by
  have hmem : (v, l.count v) ∈ valueCounts l :=
    List.mem_map.mpr ⟨v, List.mem_dedup.mpr hv, rfl⟩
  have hmem2 : (v, l.count v) ∈ sortedCounts l :=
    (List.mem_insertionSort countGe).mpr hmem
  cases hsc : sortedCounts l with
  | nil => rw [hsc] at hmem2; cases hmem2
  | cons s ss =>
    have hps : p = s := by
      have : (topCounts l).head? = some s := by
        simp [topCounts, hsc]
      rw [this] at hp
      exact (Option.some.injEq _ _).mp hp.symm
    rw [hps]
    have hsorted : List.Sorted countGe (s :: ss) := hsc ▸ sorted_sortedCounts l
    rw [hsc] at hmem2
    rcases List.mem_cons.mp hmem2 with heq | hmem3
    · rw [← heq]
    · exact List.rel_of_sorted_cons hsorted _ hmem3

/-! ### Evaluation lemmas for the witnesses -/

lemma to_numeric_eval (s : String) (p : Int × Nat) (h : parseScaled s.toList = some p) :
    to_numeric (some s) = some ((p.1 : ℚ) / (p.2 : ℚ)) := by
  show (parseScaled s.toList).map (fun p => (p.1 : ℚ) / (p.2 : ℚ)) = _
  rw [h]
  rfl

lemma rawGood_retail_eval : to_numeric rawGood.retail_price = some 999 := by
  rw [show rawGood.retail_price = some "999" from rfl,
    to_numeric_eval "999" (999, 1) (by decide)]
  norm_num

lemma rawGood_disc_eval : to_numeric rawGood.discounted_price = some 499 := by
  rw [show rawGood.discounted_price = some "499" from rfl,
    to_numeric_eval "499" (499, 1) (by decide)]
  norm_num

lemma rawGood_rating_eval : to_numeric rawGood.product_rating = some (7 / 2) := by
  rw [show rawGood.product_rating = some "3.5" from rfl,
    to_numeric_eval "3.5" (35, 10) (by decide)]
  norm_num

lemma cleanRow_rawGood : cleanRow rawGood = some cGood := by
  unfold cleanRow
  rw [show rawGood.brand = some "Acme" from rfl, rawGood_retail_eval, rawGood_disc_eval,
    rawGood_rating_eval]
  dsimp only
  rw [if_pos (by norm_num : (0 : ℚ) < 999)]
  rfl

lemma cleanTable_rawGood : cleanTable [rawGood] = [cGood] := by
  simp [cleanTable, List.filterMap_cons, cleanRow_rawGood]

lemma rawNeg_retail_eval : to_numeric rawNeg.retail_price = some 100 := by
  rw [show rawNeg.retail_price = some "100" from rfl,
    to_numeric_eval "100" (100, 1) (by decide)]
  norm_num

lemma rawNeg_disc_eval : to_numeric rawNeg.discounted_price = some 150 := by
  rw [show rawNeg.discounted_price = some "150" from rfl,
    to_numeric_eval "150" (150, 1) (by decide)]
  norm_num

lemma rawNeg_rating_eval : to_numeric rawNeg.product_rating = some 4 := by
  rw [show rawNeg.product_rating = some "4" from rfl,
    to_numeric_eval "4" (4, 1) (by decide)]
  norm_num

lemma cleanRow_rawNeg : cleanRow rawNeg = some cNeg := by
  unfold cleanRow
  rw [show rawNeg.brand = some "Acme" from rfl, rawNeg_retail_eval, rawNeg_disc_eval,
    rawNeg_rating_eval]
  dsimp only
  rw [if_pos (by norm_num : (0 : ℚ) < 100)]
  rfl

lemma cleanTable_rawNeg : cleanTable [rawNeg] = [cNeg] := by
  simp [cleanTable, List.filterMap_cons, cleanRow_rawNeg]

lemma finalTable_rawGood : finalTable zeroSent [rawGood] = some [fGood] := by
  unfold finalTable
  rw [cleanTable_rawGood]
  rfl

lemma finalTable_rawNeg : finalTable zeroSent [rawNeg] = some [fNeg] := by
  unfold finalTable
  rw [cleanTable_rawNeg]
  rfl

/-! ### The claims -/

/-- C1: a row appears in the cleaned output table iff it has a non-null
brand, a retail price that parses as a number and is strictly positive, a
discounted price that parses as a number, and a product rating that parses
as a number; rows failing any filter are removed and no other rows are
removed. -/
theorem c1_row_in_cleaned_iff (rows : List RawRow) (r : RawRow) (hr : r ∈ rows) :
    (∃ c, cleanRow r = some c ∧ c ∈ cleanTable rows) ↔
      r.brand.isSome ∧ (∃ q, to_numeric r.retail_price = some q ∧ 0 < q) ∧
        (to_numeric r.discounted_price).isSome ∧ (to_numeric r.product_rating).isSome := by
  constructor
  · rintro ⟨c, hc, -⟩
    exact (cleanRow_isSome_iff r).mp (by rw [hc]; rfl)
  · intro hcond
    rcases Option.isSome_iff_exists.mp ((cleanRow_isSome_iff r).mpr hcond) with ⟨c, hc⟩
    exact ⟨c, hc, (mem_cleanTable_iff rows c).mpr ⟨r, hr, hc⟩⟩

/-- Witness for C1 at a concrete well-formed row. -/
theorem c1_row_in_cleaned_iff_witness :
    ∃ c, cleanRow rawGood = some c ∧ c ∈ cleanTable [rawGood] :=
  (c1_row_in_cleaned_iff [rawGood] rawGood (List.mem_singleton.mpr rfl)).mpr
    ⟨by decide, ⟨999, rawGood_retail_eval, by norm_num⟩,
      by rw [rawGood_disc_eval]; rfl, by rw [rawGood_rating_eval]; rfl⟩

/-- C5: every row present when `discount_percentage` is computed has a
strictly positive retail price, so the division on line 106 never divides
by zero. -/
theorem c5_retail_positive (rows : List RawRow) (c : CleanRow) (hc : c ∈ cleanTable rows) :
    0 < c.retail_price ∧ c.retail_price ≠ 0 := by
  rcases (mem_cleanTable_iff rows c).mp hc with ⟨r, -, hcr⟩
  have h := (cleanRow_spec r c hcr).2.2.2.2.1
  exact ⟨h, ne_of_gt h⟩

/-- Witness for C5 at a concrete cleaned row. -/
theorem c5_retail_positive_witness : 0 < cGood.retail_price ∧ cGood.retail_price ≠ 0 :=
  c5_retail_positive [rawGood] cGood
    (by rw [cleanTable_rawGood]; exact List.mem_singleton.mpr rfl)

/-- C10: the filters put no constraint on the discounted price beyond
numeric parsing - a row with non-null brand, positive numeric retail price,
numeric discounted price and numeric rating survives even when the
discounted price exceeds the retail price, in which case the derived
discount percentage is strictly negative. -/
theorem c10_no_upper_bound_on_discounted (r : RawRow) (b : String) (rp dp pr : ℚ)
    (hb : r.brand = some b) (hrp : to_numeric r.retail_price = some rp)
    (hpos : 0 < rp) (hdp : to_numeric r.discounted_price = some dp)
    (hpr : to_numeric r.product_rating = some pr) :
    ∃ c, cleanRow r = some c ∧ c.retail_price = rp ∧ c.discounted_price = dp ∧
      ∀ sent fr, deriveRow sent c = some fr → rp < dp → fr.discount_percentage < 0 := by
  have hsome : (cleanRow r).isSome :=
    (cleanRow_isSome_iff r).mpr
      ⟨by rw [hb]; rfl, ⟨rp, hrp, hpos⟩, by rw [hdp]; rfl, by rw [hpr]; rfl⟩
  rcases Option.isSome_iff_exists.mp hsome with ⟨c, hc⟩
  have hspec := cleanRow_spec r c hc
  have hrpc : c.retail_price = rp := by
    have h2 := hspec.2.1
    rw [hrp] at h2
    exact (Option.some.inj h2).symm
  have hdpc : c.discounted_price = dp := by
    have h2 := hspec.2.2.1
    rw [hdp] at h2
    exact (Option.some.inj h2).symm
  refine ⟨c, hc, hrpc, hdpc, ?_⟩
  intro sent fr hfr hlt
  have hds := (deriveRow_spec sent c fr hfr).2.2.2.2.2.2.1
  rw [hds, hrpc, hdpc]
  have hnum : rp - dp < 0 := sub_neg.mpr hlt
  have hdiv : (rp - dp) / rp < 0 := div_neg_of_neg_of_pos hnum hpos
  exact mul_neg_of_neg_of_pos hdiv (by norm_num)

/-- C2: for every row of the final table, the derived `discount_percentage`
equals `(retail_price - discounted_price) / retail_price * 100` exactly,
and it is a present (non-missing) field of every final row. -/
theorem c2_discount_percentage_exact (sent : String → ℚ) (rows : List RawRow)
    (t : List FinalRow) (h : finalTable sent rows = some t) (fr : FinalRow) (hfr : fr ∈ t) :
    fr.discount_percentage =
      (fr.retail_price - fr.discounted_price) / fr.retail_price * 100 := by
  rcases mem_finalTable sent rows t h fr hfr with ⟨r, -, c, -, hd⟩
  have hs := deriveRow_spec sent c fr hd
  rw [hs.2.2.2.2.2.2.1, hs.1, hs.2.1]

/-- Witness for C2 at a concrete final row. -/
theorem c2_discount_percentage_exact_witness :
    fGood.discount_percentage =
      (fGood.retail_price - fGood.discounted_price) / fGood.retail_price * 100 :=
  c2_discount_percentage_exact zeroSent [rawGood] [fGood] finalTable_rawGood fGood
    (List.mem_singleton.mpr rfl)

/-- C3: for every surviving row whose category path is a 2-character prefix,
then a first segment, then the two-character delimiter of two greater-than
signs, then anything, the derived category is exactly the first segment with
the prefix stripped. (The spec's example path actually derives to the string
Clothing-followed-by-a-space, not to Clothing: the delimiter is the bare
two-character one, so the segment keeps its trailing space - see the
counterexample and the witness.) -/
theorem c3_category_is_first_segment (sent : String → ℚ) (c : CleanRow) (path : String)
    (fr : FinalRow) (hpath : c.product_category_tree = some path)
    (hd : deriveRow sent c = some fr) (pre seg rest : List Char)
    (hform : path.toList = (pre ++ seg) ++ '>' :: '>' :: rest)
    (hpre : pre.length = 2) (hns : splitGtGt (pre ++ seg) = [pre ++ seg])
    (hlast : (pre ++ seg).getLast? ≠ some '>') :
    fr.product_category_tree = String.mk seg := by
  rcases (deriveRow_spec sent c fr hd).2.2.2.2.2.2.2.2 with ⟨path2, hp2, hcat⟩
  rw [hpath] at hp2
  have hpp : path2 = path := (Option.some.inj hp2).symm
  subst hpp
  rw [hcat]
  unfold deriveCat
  rw [hform, deriveCatChars_of_form pre seg rest hpre hns hlast]

/-- Counterexample for C3 as frozen: on the spec's own example path the
derived category is the string Clothing-with-a-trailing-space, not the
string Clothing. -/
theorem c3_trailing_space_counterexample :
    deriveCat "[\"Clothing >> Womens Clothing >> All\"]" = "Clothing " ∧
      deriveCat "[\"Clothing >> Womens Clothing >> All\"]" ≠ "Clothing" := by
  constructor
  · decide
  · decide

/-- C4: for every final row, `description_length` is the character count of
`description`; a surviving row whose raw description was missing gets the
empty string (it is not dropped) and derived length 0. -/
theorem c4_description_length (sent : String → ℚ) (rows : List RawRow) (t : List FinalRow)
    (h : finalTable sent rows = some t) :
    (∀ fr ∈ t, fr.description_length = fr.description.length) ∧
      ∀ r ∈ rows, ∀ c, cleanRow r = some c → r.description = none →
        c.description = "" ∧ ∀ fr, deriveRow sent c = some fr →
          fr.description = "" ∧ fr.description_length = 0 := by
  constructor
  · intro fr hfr
    rcases mem_finalTable sent rows t h fr hfr with ⟨r, -, c, -, hd⟩
    have hs := deriveRow_spec sent c fr hd
    rw [hs.2.2.2.2.2.1, hs.2.2.2.2.1]
  · intro r hr c hcr hdesc
    have hc := (cleanRow_spec r c hcr).2.2.2.2.2.1
    have hcd : c.description = "" := by rw [hc, hdesc]; rfl
    refine ⟨hcd, ?_⟩
    intro fr hfr
    have hs := deriveRow_spec sent c fr hfr
    constructor
    · rw [hs.2.2.2.2.1, hcd]
    · rw [hs.2.2.2.2.2.1, hcd]; rfl

/-- Witness for C4 on a table built from a row with a missing
description. -/
theorem c4_description_length_witness :
    (∀ fr ∈ [fNeg], fr.description_length = fr.description.length) ∧
      ∀ r ∈ [rawNeg], ∀ c, cleanRow r = some c → r.description = none →
        c.description = "" ∧ ∀ fr, deriveRow zeroSent c = some fr →
          fr.description = "" ∧ fr.description_length = 0 :=
  c4_description_length zeroSent [rawNeg] [fNeg] finalTable_rawNeg

/-- C6 as frozen is false: a string category path lacking the delimiter
does not fault - Python `split` then returns the whole string as the sole
segment and slicing is total. Concretely, the path abc derives to c with no
error raised. -/
theorem c6_no_fault_counterexample :
    splitGtGt "abc".toList = ["abc".toList] ∧
      applyCatDerivation (some "abc") = some "c" := by
  constructor
  · decide
  · decide

/-- C6 amended: for every row whose category path is a string lacking the
two-character delimiter, the split and prefix-strip do NOT fault; the
derived category is the whole path with its first two characters stripped
(empty when the path is shorter than 2). Only a missing (NaN) path would
fault. -/
theorem c6_no_delimiter_total (s : String) (h : splitGtGt s.toList = [s.toList]) :
    applyCatDerivation (some s) = some (String.mk (s.toList.drop 2)) := by
  show some (deriveCat s) = _
  unfold deriveCat deriveCatChars
  rw [h]
  rfl

/-- Witness for the amended C6 at the concrete delimiter-less path abc. -/
theorem c6_no_delimiter_total_witness :
    applyCatDerivation (some "abc") = some (String.mk ("abc".toList.drop 2)) :=
  c6_no_delimiter_total "abc" (by decide)

/-- Witness for C3 at the spec's example path: the derived category is the
first segment with the 2-character prefix stripped, which keeps the trailing
space before the delimiter. -/
theorem c3_category_is_first_segment_witness :
    fCloth.product_category_tree = String.mk ("Clothing ".toList) :=
  c3_category_is_first_segment zeroSent cCloth
    "[\"Clothing >> Womens Clothing >> All\"]" fCloth rfl rfl
    ("[\"".toList) ("Clothing ".toList) (" Womens Clothing >> All\"]".toList)
    (by decide) (by decide) (by decide) (by decide)

/-- C7: each ranking of lines 43 and 59 is ordered by row count descending:
every entry's count is at least the next entry's count, and the head of the
ranking has the greatest count of any value in the column. -/
theorem c7_rankings_sorted (sent : String → ℚ) (rows : List RawRow) (t : List FinalRow)
    (_h : finalTable sent rows = some t) :
    ((topCounts (t.map FinalRow.product_category_tree)).Sorted countGe ∧
      ∀ v ∈ t.map FinalRow.product_category_tree, ∀ p,
        (topCounts (t.map FinalRow.product_category_tree)).head? = some p →
          (t.map FinalRow.product_category_tree).count v ≤ p.2) ∧
      (topCounts (t.map FinalRow.brand)).Sorted countGe ∧
        ∀ v ∈ t.map FinalRow.brand, ∀ p,
          (topCounts (t.map FinalRow.brand)).head? = some p →
            (t.map FinalRow.brand).count v ≤ p.2 :=
  ⟨⟨sorted_topCounts _, fun v hv p hp => head_topCounts_max _ v hv p hp⟩,
    sorted_topCounts _, fun v hv p hp => head_topCounts_max _ v hv p hp⟩

/-- Witness for C7 on a concrete one-row final table. -/
theorem c7_rankings_sorted_witness :
    ((topCounts ([fGood].map FinalRow.product_category_tree)).Sorted countGe ∧
      ∀ v ∈ [fGood].map FinalRow.product_category_tree, ∀ p,
        (topCounts ([fGood].map FinalRow.product_category_tree)).head? = some p →
          ([fGood].map FinalRow.product_category_tree).count v ≤ p.2) ∧
      (topCounts ([fGood].map FinalRow.brand)).Sorted countGe ∧
        ∀ v ∈ [fGood].map FinalRow.brand, ∀ p,
          (topCounts ([fGood].map FinalRow.brand)).head? = some p →
            ([fGood].map FinalRow.brand).count v ≤ p.2 :=
  c7_rankings_sorted zeroSent [rawGood] [fGood] finalTable_rawGood

/-- C8: the pipeline is deterministic - two runs on the same input rows
with the same sentiment model produce the identical saved CSV lines; the
embedding has no other state. -/
theorem c8_pipeline_deterministic (sent1 sent2 : String → ℚ)
    (rows1 rows2 : List RawRow) (hs : sent1 = sent2) (hr : rows1 = rows2) :
    runPipeline sent1 rows1 = runPipeline sent2 rows2 := by
  rw [hs, hr]

/-- Witness for C8 at a concrete run. -/
theorem c8_pipeline_deterministic_witness :
    runPipeline zeroSent [rawGood] = runPipeline zeroSent [rawGood] :=
  c8_pipeline_deterministic zeroSent zeroSent [rawGood] [rawGood] rfl rfl

/-- C9: the persister writes exactly the final table: one header line with
all column names including the derived ones, then one line per surviving
row holding that row's cells in column order, with no row-index column
prepended (the call uses `index := false`). -/
theorem c9_saved_csv (sent : String → ℚ) (rows : List RawRow) (t : List FinalRow)
    (h : finalTable sent rows = some t) :
    runPipeline sent rows = some (to_csv false t) ∧
      (to_csv false t).length = t.length + 1 ∧
      (to_csv false t).head? = some (csvLine headerCells) ∧
      ∀ i (hi : i < t.length),
        (to_csv false t)[i + 1]? = some (csvLine (rowCells (t.get ⟨i, hi⟩))) := by
  refine ⟨?_, ?_, rfl, ?_⟩
  · unfold runPipeline
    rw [h]
    rfl
  · show (csvLine headerCells :: t.map fun fr => csvLine (rowCells fr)).length = t.length + 1
    simp
  · intro i hi
    show (csvLine headerCells :: t.map fun fr => csvLine (rowCells fr))[i + 1]? = _
    rw [List.getElem?_cons_succ, List.getElem?_map, List.getElem?_eq_getElem hi]
    rfl

/-- Witness for C9 on a concrete one-row final table. -/
theorem c9_saved_csv_witness :
    runPipeline zeroSent [rawGood] = some (to_csv false [fGood]) ∧
      (to_csv false [fGood]).length = [fGood].length + 1 ∧
      (to_csv false [fGood]).head? = some (csvLine headerCells) ∧
      ∀ i (hi : i < [fGood].length),
        (to_csv false [fGood])[i + 1]? =
          some (csvLine (rowCells ([fGood].get ⟨i, hi⟩))) :=
  c9_saved_csv zeroSent [rawGood] [fGood] finalTable_rawGood

/-- Witness for C10 at a concrete row with discounted price above retail. -/
theorem c10_no_upper_bound_on_discounted_witness :
    ∃ c, cleanRow rawNeg = some c ∧ c.retail_price = 100 ∧ c.discounted_price = 150 ∧
      ∀ sent fr, deriveRow sent c = some fr → (100 : ℚ) < 150 →
        fr.discount_percentage < 0 :=
  c10_no_upper_bound_on_discounted rawNeg "Acme" 100 150 4 rfl rawNeg_retail_eval
    (by norm_num) rawNeg_disc_eval rawNeg_rating_eval

end Flipkart
